import Mathlib

/-!
Shallow embedding of the click-to-edit HTML preview tool (`src/src/App.tsx`).

The repository consists of a host React component and a script injected into
a sandboxed iframe.  We model:

* the iframe document as a map from element identifiers to element records
  (inline styles, text, class attribute) together with a fixed ancestor
  chain per element (the DOM tree structure, which no modeled event mutates);
* the injected script's closure state (`selectedEl`, `originalOutline`,
  `originalBackground`, `hoverEl`, `originalHoverOutline`) and its event
  handlers (`mouseover`, `mouseout`, `click`, `keydown`-Escape, `message`)
  as a step function emitting the messages posted to the parent window;
* the host component state (`url`, `iframeKey`, `selectedElement`,
  `editingText`, `tailwindClasses`, `codeChanges`, `mode`, `htmlContent`,
  `modifiedHtml`) and its operations (`loadIframe`, `loadHtmlContent`,
  `updateText`, `updateClasses`, the `message` handler,
  `updateModifiedHtml`).

JavaScript string truthiness (`!s` iff `s = ""`) and `undefined`
interpolation (`selectedElement?.originalText` printing as "undefined"
when no selection exists) are modeled explicitly.
-/

/-- An element of the iframe document: structural attributes (`tag`,
`idAttr`), the mutable `className`, text content, and the inline style
properties the injected script touches. -/
structure Elem where
  tag : String := ""
  idAttr : String := ""
  className : String := ""
  text : String := ""
  outline : String := ""
  outlineOffset : String := ""
  backgroundColor : String := ""
  contentEditable : String := "inherit"
deriving DecidableEq

/-- The iframe document: element records indexed by `Nat` identifiers, plus
each element's chain of ancestors (nearest parent first) up to but excluding
`document.body`.  The tree structure is fixed; events mutate only element
records. -/
structure Dom where
  elems : Nat → Elem
  parentChain : Nat → List Nat

/-- Overwrite one element record (models mutating a DOM node in place). -/
def Dom.setElem (d : Dom) (i : Nat) (f : Elem → Elem) : Dom :=
  { d with elems := fun j => if j = i then f (d.elems j) else d.elems j }

/-- JavaScript `Array.prototype.join(sep)`. -/
def joinSep (sep : String) : List String → String
  | [] => ""
  | [x] => x
  | x :: y :: xs => x ++ sep ++ joinSep sep (y :: xs)

/-- Worker for `String.prototype.split(sep)` with a one-character separator:
accumulate the current field (in reverse) and cut at each separator. -/
def jsSplitAux (sep : Char) : List Char → List Char → List String
  | [], acc => [String.mk acc.reverse]
  | c :: cs, acc =>
      if c = sep then String.mk acc.reverse :: jsSplitAux sep cs []
      else jsSplitAux sep cs (c :: acc)

/-- JavaScript `s.split(sep)` for a one-character separator (always yields at
least one field; adjacent separators yield empty fields, as in JS). -/
def jsSplit (sep : Char) (s : String) : List String := jsSplitAux sep s.data []

/-- JavaScript `s.toLowerCase()` (character-wise lowering). -/
def jsToLower (s : String) : String := String.mk (s.data.map Char.toLower)

/-- JavaScript `s.trim()`: strip whitespace from both ends. -/
def jsTrim (s : String) : String :=
  String.mk (((s.data.dropWhile Char.isWhitespace).reverse.dropWhile
    Char.isWhitespace).reverse)

/-- One path segment: `el.tagName.toLowerCase()`, then `'#' + el.id` when the
id is nonempty (JS truthiness), then `'.' + el.className.split(' ').join('.')`
when the class attribute is nonempty. -/
def elemSelector (el : Elem) : String :=
  jsToLower el.tag
    ++ (if el.idAttr ≠ "" then "#" ++ el.idAttr else "")
    ++ (if el.className ≠ "" then
          "." ++ joinSep "." (jsSplit ' ' el.className) else "")

/-- The `while (el && el !== document.body)` loop of `getElementPath`:
`path.unshift(selector)` at each node walking parent-wards builds the
segment list in root-to-target order. -/
def pathSegs (d : Dom) : List Nat → List String
  | [] => []
  | x :: xs => pathSegs d xs ++ [elemSelector (d.elems x)]

/-- `getElementPath(el)`: segments from the topmost ancestor below `body`
down to `el`, joined with `" > "`. -/
def getElementPath (d : Dom) (e : Nat) : String :=
  joinSep " > " (pathSegs d (e :: d.parentChain e))

/-- Messages posted by the injected script to the parent window. -/
inductive RMsg where
  | elementSelected (text classes path : String)
  | escapePressed
deriving DecidableEq

/-- The injected script's closure variables. -/
structure ScriptState where
  selectedEl : Option Nat
  originalOutline : String
  originalBackground : String
  hoverEl : Option Nat
  originalHoverOutline : String
deriving DecidableEq

/-- Initial closure state on injection (`let selectedEl = null; ...`). -/
def scriptInit : ScriptState :=
  { selectedEl := none, originalOutline := "", originalBackground := ""
    hoverEl := none, originalHoverOutline := "" }

/-- Revert a selection's styling: restore the captured outline and
background and set `contentEditable` to `'false'` (the three statements run
both when replacing a selection and on Escape). -/
def revertStyle (st : ScriptState) (e : Elem) : Elem :=
  { e with outline := st.originalOutline
           backgroundColor := st.originalBackground
           contentEditable := "false" }

/-- The selection styling applied by `selectElement`. -/
def applySelStyle (e : Elem) : Elem :=
  { e with outline := "3px solid #2563eb"
           outlineOffset := "2px"
           backgroundColor := "rgba(37, 99, 235, 0.1)"
           contentEditable := "true" }

/-- The transient hover styling applied by the `mouseover` handler. -/
def applyHoverStyle (e : Elem) : Elem :=
  { e with outline := "2px dashed #64748b", outlineOffset := "1px" }

/-- Restore a hover target's outline (`hoverEl.style.outline =
originalHoverOutline`). -/
def restoreHover (st : ScriptState) (e : Elem) : Elem :=
  { e with outline := st.originalHoverOutline }

/-- `selectedEl.innerText = e.data.text`. -/
def setText (s : String) (e : Elem) : Elem := { e with text := s }

/-- `selectedEl.className = e.data.classes`. -/
def setClasses (s : String) (e : Elem) : Elem := { e with className := s }

/-- `selectElement(el)`: revert the previous selection's outline, background
and editability if one exists; capture `el`'s current outline/background;
apply the selection styling and mark `el` content-editable; post
`ELEMENT_SELECTED` with `el`'s text, class attribute and computed path. -/
def selectElement (d : Dom) (st : ScriptState) (el : Nat) :
    Dom × ScriptState × List RMsg :=
  let d1 := match st.selectedEl with
    | some s => d.setElem s (revertStyle st)
    | none => d
  let origOutline := (d1.elems el).outline
  let origBackground := (d1.elems el).backgroundColor
  let d2 := d1.setElem el applySelStyle
  (d2,
   { st with selectedEl := some el
             originalOutline := origOutline
             originalBackground := origBackground },
   [RMsg.elementSelected (d2.elems el).text (d2.elems el).className
      (getElementPath d2 el)])

/-- Events delivered to the injected script: pointer enter/leave, click,
the Escape key, and `UPDATE_TEXT`/`UPDATE_CLASSES` messages from the host. -/
inductive Ev where
  | mouseover (t : Nat)
  | mouseout
  | click (t : Nat)
  | escapeKey
  | updateTextMsg (s : String)
  | updateClassesMsg (s : String)
deriving DecidableEq

/-- One event handler dispatch of the injected script, returning the updated
document, the updated closure state, and the messages posted to the parent. -/
def stepEv (p : Dom × ScriptState) (ev : Ev) : Dom × ScriptState × List RMsg :=
  let d := p.1
  let st := p.2
  match ev with
  | .mouseover t =>
      if st.selectedEl ≠ some t ∧ st.hoverEl ≠ some t then
        let d1 := match st.hoverEl with
          | some h =>
              if st.selectedEl ≠ some h then d.setElem h (restoreHover st)
              else d
          | none => d
        let origHover := (d1.elems t).outline
        let d2 := d1.setElem t applyHoverStyle
        (d2, { st with hoverEl := some t, originalHoverOutline := origHover }, [])
      else (d, st, [])
  | .mouseout =>
      match st.hoverEl with
      | some h =>
          if st.selectedEl ≠ some h then
            (d.setElem h (restoreHover st), { st with hoverEl := none }, [])
          else (d, st, [])
      | none => (d, st, [])
  | .click t =>
      let q := match st.hoverEl with
        | some h => (d.setElem h (restoreHover st), { st with hoverEl := none })
        | none => (d, st)
      selectElement q.1 q.2 t
  | .escapeKey =>
      match st.selectedEl with
      | some s =>
          (d.setElem s (revertStyle st),
           { st with selectedEl := none }, [RMsg.escapePressed])
      | none => (d, st, [])
  | .updateTextMsg s =>
      match st.selectedEl with
      | some e => (d.setElem e (setText s), st, [])
      | none => (d, st, [])
  | .updateClassesMsg s =>
      match st.selectedEl with
      | some e => (d.setElem e (setClasses s), st, [])
      | none => (d, st, [])

/-- `stepEv` with the posted messages dropped. -/
def stepDS (p : Dom × ScriptState) (ev : Ev) : Dom × ScriptState :=
  ((stepEv p ev).1, (stepEv p ev).2.1)

/-- Run a sequence of events through the injected script. -/
def runScript (evs : List Ev) (p : Dom × ScriptState) : Dom × ScriptState :=
  evs.foldl stepDS p

/-- The host's mode switcher: URL mode or raw-HTML mode. -/
inductive Mode where
  | url
  | html
deriving DecidableEq

/-- Host-side record of the current selection (the TS `SelectedElement`
interface; the `element` field is stored as `null` in the source and
carries no information, so it is omitted). -/
structure SelectedElement where
  originalText : String
  path : String
deriving DecidableEq

/-- Messages posted by the host into the iframe. -/
inductive HMsg where
  | updateTextTo (text : String)
  | updateClassesTo (classes : String)
deriving DecidableEq

/-- The host component's state hooks, plus `rendererPresent` modeling
whether `iframeRef.current` / its `contentWindow` is non-null. -/
structure HostState where
  url : String
  iframeKey : Nat
  selectedElement : Option SelectedElement
  editingText : String
  tailwindClasses : String
  codeChanges : List String
  mode : Mode
  htmlContent : String
  modifiedHtml : String
  rendererPresent : Bool
deriving DecidableEq

/-- `loadIframe`: `if (!url && mode === 'url') return;` then bump the iframe
key and clear selection and change log. -/
def loadIframe (s : HostState) : HostState :=
  if s.url = "" ∧ s.mode = Mode.url then s
  else { s with iframeKey := s.iframeKey + 1
                selectedElement := none
                codeChanges := [] }

/-- `loadHtmlContent`: no-op when the markup is blank after trimming or the
iframe is absent; otherwise bump the iframe key, clear selection and change
log, and store the markup as the modified-HTML snapshot. -/
def loadHtmlContent (s : HostState) : HostState :=
  if jsTrim s.htmlContent = "" then s
  else if s.rendererPresent = false then s
  else { s with iframeKey := s.iframeKey + 1
                selectedElement := none
                codeChanges := []
                modifiedHtml := s.htmlContent }

/-- `selectedElement?.originalText`: JS optional chaining on a null
selection yields `undefined`, which string-interpolates as "undefined". -/
def optOriginalText : Option SelectedElement → String
  | some se => se.originalText
  | none => "undefined"

/-- `selectedElement?.path` under JS string interpolation. -/
def optPath : Option SelectedElement → String
  | some se => se.path
  | none => "undefined"

/-- The log entry template for text edits. -/
def textChangeEntry (old n : String) : String :=
  "Text changed: \"" ++ old ++ "\" → \"" ++ n ++ "\""

/-- The log entry template for class edits. -/
def classChangeEntry (n p : String) : String :=
  "Classes updated: \"" ++ n ++ "\" on " ++ p

/-- `updateText(newText)`: set the edit buffer; when the iframe's window is
reachable, post `UPDATE_TEXT` and append one log entry built from the
stored selection's `originalText`. -/
def updateText (n : String) (s : HostState) : HostState × List HMsg :=
  let s1 := { s with editingText := n }
  if s1.rendererPresent then
    ({ s1 with codeChanges :=
         s1.codeChanges ++ [textChangeEntry (optOriginalText s1.selectedElement) n] },
     [HMsg.updateTextTo n])
  else (s1, [])

/-- `updateClasses(newClasses)`: set the class buffer; when the iframe's
window is reachable, post `UPDATE_CLASSES` and append one log entry. -/
def updateClasses (n : String) (s : HostState) : HostState × List HMsg :=
  let s1 := { s with tailwindClasses := n }
  if s1.rendererPresent then
    ({ s1 with codeChanges :=
         s1.codeChanges ++ [classChangeEntry n (optPath s1.selectedElement)] },
     [HMsg.updateClassesTo n])
  else (s1, [])

/-- The host's `message` handler: `ELEMENT_SELECTED` populates the edit
buffers and replaces the stored selection; `ESCAPE_PRESSED` clears them. -/
def handleMessage (m : RMsg) (s : HostState) : HostState :=
  match m with
  | .elementSelected t c p =>
      { s with editingText := t
               tailwindClasses := c
               selectedElement := some { originalText := t, path := p } }
  | .escapePressed =>
      { s with selectedElement := none
               editingText := ""
               tailwindClasses := "" }

/-- `updateModifiedHtml`: the extraction attempt yields `some html` when the
iframe document could be read, `none` when the document was unreachable or
reading threw (the catch branch only warns). -/
def updateModifiedHtml (result : Option String) (s : HostState) : HostState :=
  match result with
  | some h => { s with modifiedHtml := h }
  | none => s

/-- Host-side events that can occur between two loads. -/
inductive HostEv where
  | editText (n : String)
  | editClasses (n : String)
  | recv (m : RMsg)
  | extract (r : Option String)

/-- One host-side event dispatch (messages to the iframe dropped). -/
def hostStep (ev : HostEv) (s : HostState) : HostState :=
  match ev with
  | .editText n => (updateText n s).1
  | .editClasses n => (updateClasses n s).1
  | .recv m => handleMessage m s
  | .extract r => updateModifiedHtml r s

/-! ### Basic lemmas about the embedding -/

theorem setElem_elems (d : Dom) (i : Nat) (f : Elem → Elem) (e : Nat) :
    (d.setElem i f).elems e = if e = i then f (d.elems e) else d.elems e := rfl

theorem setElem_parentChain (d : Dom) (i : Nat) (f : Elem → Elem) :
    (d.setElem i f).parentChain = d.parentChain := rfl

theorem joinSep_append_singleton (sep a : String) :
    ∀ xs : List String, xs ≠ [] →
      joinSep sep (xs ++ [a]) = joinSep sep xs ++ sep ++ a := by
  intro xs
  induction xs with
  | nil => intro h; exact absurd rfl h
  | cons x ys ih =>
      intro _
      cases ys with
      | nil => simp [joinSep]
      | cons y zs =>
          have h2 : joinSep sep ((y :: zs) ++ [a]) =
              joinSep sep (y :: zs) ++ sep ++ a := ih (by simp)
          calc joinSep sep ((x :: y :: zs) ++ [a])
              = x ++ sep ++ joinSep sep ((y :: zs) ++ [a]) := rfl
            _ = x ++ sep ++ (joinSep sep (y :: zs) ++ sep ++ a) := by rw [h2]
            _ = joinSep sep (x :: y :: zs) ++ sep ++ a := by
                  show _ = x ++ sep ++ joinSep sep (y :: zs) ++ sep ++ a
                  simp only [String.append_assoc]

theorem pathSegs_ne_nil (d : Dom) (x : Nat) (xs : List Nat) :
    pathSegs d (x :: xs) ≠ [] := by
  simp [pathSegs]

/-! ### Claim theorems: path computation and host operations -/

/-- A document holding one `div#main` with classes `a b` directly under the
content root (`document.body`). -/
def c3dom : Dom :=
  { elems := fun i =>
      if i = 0 then { tag := "div", idAttr := "main", className := "a b" }
      else {},
    parentChain := fun _ => [] }

/-- Claim C3: the path computation walks from the target element up through
its ancestors, stopping before the document's top-level content container;
an element whose ancestor chain is empty gets just its own
`tagname[#id][.class1.class2...]` segment; an element one level deeper gets
its parent's path followed by `" > "` and its own segment (so segments
appear in root-to-target order); and for a `div` with id `main` and classes
`a b` directly under the root container the computed path is exactly
`div#main.a.b`. -/
theorem claim_C3 :
    (∀ (d : Dom) (e : Nat), d.parentChain e = [] →
        getElementPath d e = elemSelector (d.elems e)) ∧
    (∀ (d : Dom) (e p : Nat) (rest : List Nat),
        d.parentChain e = p :: rest → d.parentChain p = rest →
        getElementPath d e = getElementPath d p ++ " > " ++ elemSelector (d.elems e)) ∧
    getElementPath c3dom 0 = "div#main.a.b" := by
  refine ⟨?_, ?_, by decide⟩
  · intro d e h
    simp [getElementPath, h, pathSegs, joinSep]
  · intro d e p rest h1 h2
    have hne : pathSegs d (p :: rest) ≠ [] := pathSegs_ne_nil d p rest
    calc getElementPath d e
        = joinSep " > " (pathSegs d (p :: rest) ++ [elemSelector (d.elems e)]) := by
          simp [getElementPath, h1, pathSegs]
      _ = joinSep " > " (pathSegs d (p :: rest)) ++ " > " ++ elemSelector (d.elems e) :=
          joinSep_append_singleton _ _ _ hne
      _ = getElementPath d p ++ " > " ++ elemSelector (d.elems e) := by
          simp [getElementPath, h2]

/-- Witness for C3 at a concrete two-level document. -/
def c3dom2 : Dom :=
  { elems := fun i =>
      if i = 0 then { tag := "div", idAttr := "main", className := "a b" }
      else if i = 1 then { tag := "span", className := "x" }
      else {},
    parentChain := fun i => if i = 1 then [0] else [] }

theorem claim_C3_witness :
    c3dom2.parentChain 1 = [0] ∧ c3dom2.parentChain 0 = [] ∧
    getElementPath c3dom2 1 =
      getElementPath c3dom2 0 ++ " > " ++ elemSelector (c3dom2.elems 1) :=
  ⟨by decide, by decide, claim_C3.2.1 c3dom2 1 0 [] (by decide) (by decide)⟩

/-- A host state in URL mode whose address input is whitespace-only, with a
live selection and a non-empty change log. -/
def c4state : HostState :=
  { url := " ", iframeKey := 0,
    selectedElement := some { originalText := "hi", path := "p" },
    editingText := "hi", tailwindClasses := "", codeChanges := ["old entry"],
    mode := Mode.url, htmlContent := "", modifiedHtml := "",
    rendererPresent := true }

/-- Counterexample to claim C4 as stated: in network-address (URL) mode a
whitespace-only address is not rejected (`loadIframe` only tests `!url`,
not a trimmed value), so the load proceeds: the renderer key is bumped and
the selection and change log are cleared. -/
theorem claim_C4_counterexample :
    jsTrim c4state.url = "" ∧
    loadIframe c4state ≠ c4state ∧
    (loadIframe c4state).iframeKey = c4state.iframeKey + 1 ∧
    (loadIframe c4state).codeChanges ≠ c4state.codeChanges := by
  refine ⟨by decide, ?_, by decide, by decide⟩
  intro h
  have : (loadIframe c4state).iframeKey = c4state.iframeKey := by rw [h]
  revert this
  decide

/-- Claim C4 (amended): in raw-markup mode a blank or whitespace-only markup
load is a no-op; in network-address mode only the exactly empty address is a
no-op (a whitespace-only address still triggers a load). -/
theorem claim_C4 :
    (∀ s : HostState, jsTrim s.htmlContent = "" → loadHtmlContent s = s) ∧
    (∀ s : HostState, s.mode = Mode.url → s.url = "" → loadIframe s = s) := by
  constructor
  · intro s h
    simp [loadHtmlContent, h]
  · intro s hm hu
    simp [loadIframe, hm, hu]

theorem claim_C4_witness :
    jsTrim " \n " = "" ∧
    loadHtmlContent { c4state with htmlContent := " \n " } =
      { c4state with htmlContent := " \n " } :=
  ⟨by decide, claim_C4.1 { c4state with htmlContent := " \n " } (by decide)⟩

/-- Claim C5: any load that actually proceeds clears the selection and the
change log, in both modes; and every non-load host operation only ever
appends to the change log (the log grows monotonically between loads). -/
theorem claim_C5 :
    (∀ s : HostState, ¬(s.url = "" ∧ s.mode = Mode.url) →
        (loadIframe s).selectedElement = none ∧ (loadIframe s).codeChanges = []) ∧
    (∀ s : HostState, jsTrim s.htmlContent ≠ "" → s.rendererPresent = true →
        (loadHtmlContent s).selectedElement = none ∧
        (loadHtmlContent s).codeChanges = []) ∧
    (∀ (ev : HostEv) (s : HostState),
        ∃ t, (hostStep ev s).codeChanges = s.codeChanges ++ t) := by
  refine ⟨?_, ?_, ?_⟩
  · intro s h
    simp [loadIframe, h]
  · intro s h1 h2
    simp [loadHtmlContent, h1, h2]
  · intro ev s
    cases ev with
    | editText n =>
        by_cases h : s.rendererPresent
        · exact ⟨[textChangeEntry (optOriginalText s.selectedElement) n],
            by simp [hostStep, updateText, h]⟩
        · exact ⟨[], by simp [hostStep, updateText, h]⟩
    | editClasses n =>
        by_cases h : s.rendererPresent
        · exact ⟨[classChangeEntry n (optPath s.selectedElement)],
            by simp [hostStep, updateClasses, h]⟩
        · exact ⟨[], by simp [hostStep, updateClasses, h]⟩
    | recv m =>
        cases m with
        | elementSelected t c p => exact ⟨[], by simp [hostStep, handleMessage]⟩
        | escapePressed => exact ⟨[], by simp [hostStep, handleMessage]⟩
    | extract r =>
        cases r with
        | some h => exact ⟨[], by simp [hostStep, updateModifiedHtml]⟩
        | none => exact ⟨[], by simp [hostStep, updateModifiedHtml]⟩

theorem claim_C5_witness :
    (¬(c4state.url = "" ∧ c4state.mode = Mode.url)) ∧
    (loadIframe c4state).selectedElement = none ∧
    (loadIframe c4state).codeChanges = [] :=
  ⟨by decide, claim_C5.1 c4state (by decide)⟩

/-- Claim C6: with the renderer reachable and a selection stored, a text
edit appends exactly one log entry, of the exact form
`Text changed: "<old>" → "<new>"` with `<old>` the stored selection's
`originalText`; the edit does not touch the stored selection (so the
baseline is not re-captured); and the baseline is exactly the `text` field
of the `ELEMENT_SELECTED` message that created the selection. -/
theorem claim_C6 :
    ∀ (s : HostState) (n : String) (sel : SelectedElement),
      s.rendererPresent = true → s.selectedElement = some sel →
      ((updateText n s).1.codeChanges =
          s.codeChanges ++ [textChangeEntry sel.originalText n] ∧
       (updateText n s).1.selectedElement = some sel ∧
       (∀ (t c p : String) (s' : HostState),
          (handleMessage (RMsg.elementSelected t c p) s').selectedElement =
            some { originalText := t, path := p })) := by
  intro s n sel hr hsel
  refine ⟨?_, ?_, fun t c p s' => rfl⟩
  · simp [updateText, hr, hsel, optOriginalText]
  · simp [updateText, hr, hsel]

/-- A host state with the renderer reachable and a selection stored. -/
def c6state : HostState :=
  { url := "", iframeKey := 1,
    selectedElement := some { originalText := "hi", path := "div.a" },
    editingText := "hi", tailwindClasses := "a", codeChanges := [],
    mode := Mode.html, htmlContent := "<div>hi</div>", modifiedHtml := "",
    rendererPresent := true }

theorem claim_C6_witness :
    (updateText "bye" c6state).1.codeChanges =
        c6state.codeChanges ++ [textChangeEntry "hi" "bye"] ∧
    (updateText "bye" c6state).1.selectedElement =
        some { originalText := "hi", path := "div.a" } :=
  ⟨(claim_C6 c6state "bye" { originalText := "hi", path := "div.a" } rfl rfl).1,
   (claim_C6 c6state "bye" { originalText := "hi", path := "div.a" } rfl rfl).2.1⟩

/-- Claim C7: an `UPDATE_TEXT` or `UPDATE_CLASSES` message arriving in the
injected script while no element is selected leaves the document and the
script state entirely unchanged and posts nothing. -/
theorem claim_C7 :
    ∀ (d : Dom) (st : ScriptState) (m : String), st.selectedEl = none →
      stepEv (d, st) (Ev.updateTextMsg m) = (d, st, []) ∧
      stepEv (d, st) (Ev.updateClassesMsg m) = (d, st, []) := by
  intro d st m h
  constructor <;> simp [stepEv, h]

theorem claim_C7_witness :
    stepEv (c3dom, scriptInit) (Ev.updateTextMsg "x") = (c3dom, scriptInit, []) ∧
    stepEv (c3dom, scriptInit) (Ev.updateClassesMsg "x") = (c3dom, scriptInit, []) :=
  claim_C7 c3dom scriptInit "x" rfl

/-- Claim C8: a failed snapshot extraction (unreachable or unreadable
renderer document) changes nothing: the stored snapshot and change log are
exactly as before, the whole host state being left intact. -/
theorem claim_C8 :
    ∀ s : HostState,
      (updateModifiedHtml none s).modifiedHtml = s.modifiedHtml ∧
      (updateModifiedHtml none s).codeChanges = s.codeChanges ∧
      updateModifiedHtml none s = s :=
  fun _ => ⟨rfl, rfl, rfl⟩

/-! ### Script-side lemmas: content preservation, selection and hover
invariants -/

/-- An element update that touches only inline style properties (and the
editability flag), leaving tag, id, class attribute and text alone. -/
def stylePreserving (f : Elem → Elem) : Prop :=
  ∀ x, (f x).tag = x.tag ∧ (f x).idAttr = x.idAttr ∧
    (f x).className = x.className ∧ (f x).text = x.text

/-- An element update that leaves `contentEditable` alone. -/
def cePreserving (f : Elem → Elem) : Prop :=
  ∀ x, (f x).contentEditable = x.contentEditable

theorem revertStyle_stylePreserving (st : ScriptState) :
    stylePreserving (revertStyle st) := fun _ => ⟨rfl, rfl, rfl, rfl⟩

theorem applySelStyle_stylePreserving : stylePreserving applySelStyle :=
  fun _ => ⟨rfl, rfl, rfl, rfl⟩

theorem applyHoverStyle_stylePreserving : stylePreserving applyHoverStyle :=
  fun _ => ⟨rfl, rfl, rfl, rfl⟩

theorem restoreHover_stylePreserving (st : ScriptState) :
    stylePreserving (restoreHover st) := fun _ => ⟨rfl, rfl, rfl, rfl⟩

theorem applyHoverStyle_cePreserving : cePreserving applyHoverStyle :=
  fun _ => rfl

theorem restoreHover_cePreserving (st : ScriptState) :
    cePreserving (restoreHover st) := fun _ => rfl

theorem setText_cePreserving (s : String) : cePreserving (setText s) :=
  fun _ => rfl

theorem setClasses_cePreserving (s : String) : cePreserving (setClasses s) :=
  fun _ => rfl

theorem setElem_contentEditable (d : Dom) (i : Nat) (f : Elem → Elem)
    (hf : cePreserving f) (e : Nat) :
    ((d.setElem i f).elems e).contentEditable = (d.elems e).contentEditable := by
  rw [setElem_elems]
  split
  · exact hf (d.elems e)
  · rfl

theorem elemSelector_eq_of_content (x y : Elem) (htag : x.tag = y.tag)
    (hid : x.idAttr = y.idAttr) (hcls : x.className = y.className) :
    elemSelector x = elemSelector y := by
  unfold elemSelector
  rw [htag, hid, hcls]

theorem setElem_elemSelector (d : Dom) (i : Nat) (f : Elem → Elem)
    (hf : stylePreserving f) (e : Nat) :
    elemSelector ((d.setElem i f).elems e) = elemSelector (d.elems e) := by
  rw [setElem_elems]
  split
  · exact elemSelector_eq_of_content _ _ (hf _).1 (hf _).2.1 (hf _).2.2.1
  · rfl

theorem setElem_pathSegs (d : Dom) (i : Nat) (f : Elem → Elem)
    (hf : stylePreserving f) (l : List Nat) :
    pathSegs (d.setElem i f) l = pathSegs d l := by
  induction l with
  | nil => rfl
  | cons x xs ih => simp [pathSegs, ih, setElem_elemSelector d i f hf]

theorem setElem_getElementPath (d : Dom) (i : Nat) (f : Elem → Elem)
    (hf : stylePreserving f) (e : Nat) :
    getElementPath (d.setElem i f) e = getElementPath d e := by
  unfold getElementPath
  rw [setElem_parentChain, setElem_pathSegs d i f hf]

theorem setElem_text (d : Dom) (i : Nat) (f : Elem → Elem)
    (hf : stylePreserving f) (e : Nat) :
    ((d.setElem i f).elems e).text = (d.elems e).text := by
  rw [setElem_elems]
  split
  · exact (hf _).2.2.2
  · rfl

theorem setElem_className (d : Dom) (i : Nat) (f : Elem → Elem)
    (hf : stylePreserving f) (e : Nat) :
    ((d.setElem i f).elems e).className = (d.elems e).className := by
  rw [setElem_elems]
  split
  · exact (hf _).2.2.1
  · rfl

/-- `selectElement` always posts exactly one `ELEMENT_SELECTED` message,
carrying the target's text, class attribute and path as they stand in the
incoming document (the reverts and stylings touch no content). -/
theorem selectElement_msgs (d : Dom) (st : ScriptState) (t : Nat) :
    (selectElement d st t).2.2 =
      [RMsg.elementSelected (d.elems t).text (d.elems t).className
        (getElementPath d t)] := by
  unfold selectElement
  cases hsel : st.selectedEl with
  | none =>
      simp only
      rw [setElem_text _ _ _ applySelStyle_stylePreserving,
          setElem_className _ _ _ applySelStyle_stylePreserving,
          setElem_getElementPath _ _ _ applySelStyle_stylePreserving]
  | some s =>
      simp only
      rw [setElem_text _ _ _ applySelStyle_stylePreserving,
          setElem_className _ _ _ applySelStyle_stylePreserving,
          setElem_getElementPath _ _ _ applySelStyle_stylePreserving,
          setElem_text _ _ _ (revertStyle_stylePreserving st),
          setElem_className _ _ _ (revertStyle_stylePreserving st),
          setElem_getElementPath _ _ _ (revertStyle_stylePreserving st)]

/-- Every click posts exactly one fresh `ELEMENT_SELECTED` message carrying
the clicked element's current text, classes and path. -/
theorem click_msgs (p : Dom × ScriptState) (t : Nat) :
    (stepEv p (Ev.click t)).2.2 =
      [RMsg.elementSelected (p.1.elems t).text (p.1.elems t).className
        (getElementPath p.1 t)] := by
  show (stepEv (p.1, p.2) (Ev.click t)).2.2 = _
  unfold stepEv
  cases hh : p.2.hoverEl with
  | none => simp only [hh, selectElement_msgs]
  | some h =>
      simp only [hh, selectElement_msgs]
      rw [setElem_text _ _ _ (restoreHover_stylePreserving p.2),
          setElem_className _ _ _ (restoreHover_stylePreserving p.2),
          setElem_getElementPath _ _ _ (restoreHover_stylePreserving p.2)]

/-- The selection invariant: any element currently marked content-editable
is the script's tracked selection (hence there is at most one). -/
def selInv (d : Dom) (st : ScriptState) : Prop :=
  ∀ e, (d.elems e).contentEditable = "true" → st.selectedEl = some e

theorem selInv_of_ce_eq (d d' : Dom) (st st' : ScriptState)
    (hce : ∀ e, (d'.elems e).contentEditable = (d.elems e).contentEditable)
    (hsel : st'.selectedEl = st.selectedEl) (h : selInv d st) : selInv d' st' := by
  intro e he
  rw [hsel]
  exact h e ((hce e).symm.trans he)

theorem selInv_selectElement (d : Dom) (st : ScriptState) (t : Nat)
    (h : selInv d st) :
    selInv (selectElement d st t).1 (selectElement d st t).2.1 := by
  intro e he
  simp only [selectElement] at he ⊢
  cases hsel : st.selectedEl with
  | none =>
      simp only [hsel] at he ⊢
      rw [setElem_elems] at he
      by_cases het : e = t
      · simp [het]
      · rw [if_neg het] at he
        exact absurd (hsel ▸ h e he) (by simp)
  | some s =>
      simp only [hsel] at he ⊢
      rw [setElem_elems] at he
      by_cases het : e = t
      · simp [het]
      · rw [if_neg het, setElem_elems] at he
        by_cases hes : e = s
        · rw [if_pos hes] at he
          exact absurd he (by simp [revertStyle])
        · rw [if_neg hes] at he
          have := h e he
          rw [hsel] at this
          exact absurd (Option.some.inj this).symm hes

theorem selInv_stepDS (d : Dom) (st : ScriptState) (ev : Ev)
    (h : selInv d st) :
    selInv (stepDS (d, st) ev).1 (stepDS (d, st) ev).2 := by
  cases ev with
  | mouseover t =>
      simp only [stepDS, stepEv]
      by_cases hg : st.selectedEl ≠ some t ∧ st.hoverEl ≠ some t
      · rw [if_pos hg]
        cases hh : st.hoverEl with
        | none =>
            simp only [hh]
            refine selInv_of_ce_eq d _ st _ ?_ rfl h
            intro e
            exact setElem_contentEditable _ _ _ applyHoverStyle_cePreserving e
        | some hv =>
            simp only [hh]
            by_cases hs : st.selectedEl ≠ some hv
            · rw [if_pos hs]
              refine selInv_of_ce_eq d _ st _ ?_ rfl h
              intro e
              rw [setElem_contentEditable _ _ _ applyHoverStyle_cePreserving e,
                  setElem_contentEditable _ _ _ (restoreHover_cePreserving st) e]
            · rw [if_neg hs]
              refine selInv_of_ce_eq d _ st _ ?_ rfl h
              intro e
              exact setElem_contentEditable _ _ _ applyHoverStyle_cePreserving e
      · rw [if_neg hg]
        exact h
  | mouseout =>
      simp only [stepDS, stepEv]
      cases hh : st.hoverEl with
      | none => exact h
      | some hv =>
          simp only [hh]
          by_cases hs : st.selectedEl ≠ some hv
          · rw [if_pos hs]
            refine selInv_of_ce_eq d _ st _ ?_ rfl h
            intro e
            exact setElem_contentEditable _ _ _ (restoreHover_cePreserving st) e
          · rw [if_neg hs]
            exact h
  | click t =>
      simp only [stepDS, stepEv]
      cases hh : st.hoverEl with
      | none =>
          simp only [hh]
          exact selInv_selectElement d st t h
      | some hv =>
          simp only [hh]
          refine selInv_selectElement _ _ t ?_
          refine selInv_of_ce_eq d _ st _ ?_ rfl h
          intro e
          exact setElem_contentEditable _ _ _ (restoreHover_cePreserving st) e
  | escapeKey =>
      simp only [stepDS, stepEv]
      cases hsel : st.selectedEl with
      | none => exact h
      | some s =>
          simp only [hsel]
          intro e he
          rw [setElem_elems] at he
          by_cases hes : e = s
          · rw [if_pos hes] at he
            exact absurd he (by simp [revertStyle])
          · rw [if_neg hes] at he
            have := h e he
            rw [hsel] at this
            exact absurd (Option.some.inj this).symm hes
  | updateTextMsg s =>
      simp only [stepDS, stepEv]
      cases hsel : st.selectedEl with
      | none => exact h
      | some x =>
          simp only [hsel]
          refine selInv_of_ce_eq d _ st _ ?_ rfl h
          intro e
          exact setElem_contentEditable _ _ _ (setText_cePreserving s) e
  | updateClassesMsg s =>
      simp only [stepDS, stepEv]
      cases hsel : st.selectedEl with
      | none => exact h
      | some x =>
          simp only [hsel]
          refine selInv_of_ce_eq d _ st _ ?_ rfl h
          intro e
          exact setElem_contentEditable _ _ _ (setClasses_cePreserving s) e

theorem selInv_runScript (evs : List Ev) :
    ∀ p : Dom × ScriptState, selInv p.1 p.2 →
      selInv (runScript evs p).1 (runScript evs p).2 := by
  induction evs with
  | nil => intro p h; exact h
  | cons ev rest ih =>
      intro p h
      exact ih (stepDS p ev) (selInv_stepDS p.1 p.2 ev h)

/-- An element carrying the full selection marking: selection outline,
selection background, and content-editability. -/
def markedSelected (d : Dom) (e : Nat) : Prop :=
  (d.elems e).outline = "3px solid #2563eb" ∧
  (d.elems e).backgroundColor = "rgba(37, 99, 235, 0.1)" ∧
  (d.elems e).contentEditable = "true"

/-- Claim C1: starting from a document with no content-editable element,
after any sequence of events at most one element is marked selected; and
whenever a click lands on a new element while a previous selection exists,
the previous element's outline, background and editability are reverted (to
the values captured when it was selected, with editability cleared) in the
resulting document. -/
theorem claim_C1 (d : Dom) (evs : List Ev)
    (hinit : ∀ e, (d.elems e).contentEditable ≠ "true") :
    (∀ e1 e2, markedSelected (runScript evs (d, scriptInit)).1 e1 →
        markedSelected (runScript evs (d, scriptInit)).1 e2 → e1 = e2) ∧
    (∀ (d' : Dom) (st' : ScriptState) (prev t : Nat),
        st'.selectedEl = some prev → prev ≠ t →
        ((stepEv (d', st') (Ev.click t)).1.elems prev).outline =
          st'.originalOutline ∧
        ((stepEv (d', st') (Ev.click t)).1.elems prev).backgroundColor =
          st'.originalBackground ∧
        ((stepEv (d', st') (Ev.click t)).1.elems prev).contentEditable =
          "false") := by
  constructor
  · have h0 : selInv d scriptInit := fun e he => absurd he (hinit e)
    have hinv := selInv_runScript evs (d, scriptInit) h0
    intro e1 e2 h1 h2
    have k1 := hinv e1 h1.2.2
    have k2 := hinv e2 h2.2.2
    rw [k1] at k2
    exact Option.some.inj k2
  · intro d' st' prev t hsel hne
    simp only [stepEv]
    cases hh : st'.hoverEl with
    | none =>
        simp only [hh, selectElement, hsel]
        rw [setElem_elems, if_neg hne, setElem_elems, if_pos rfl]
        exact ⟨rfl, rfl, rfl⟩
    | some hv =>
        simp only [hh, selectElement, hsel]
        rw [setElem_elems, if_neg hne, setElem_elems, if_pos rfl]
        exact ⟨rfl, rfl, rfl⟩

/-- A document whose elements all carry default (non-editable) records. -/
def c1dom : Dom := { elems := fun _ => {}, parentChain := fun _ => [] }

/-- A script state with element 0 selected and its original styles captured. -/
def stSel0 : ScriptState :=
  { selectedEl := some 0, originalOutline := "1px solid red"
    originalBackground := "white", hoverEl := none, originalHoverOutline := "" }

theorem claim_C1_witness :
    (∀ e, (c1dom.elems e).contentEditable ≠ "true") ∧
    (∀ e1 e2,
        markedSelected (runScript [Ev.click 0, Ev.click 1] (c1dom, scriptInit)).1 e1 →
        markedSelected (runScript [Ev.click 0, Ev.click 1] (c1dom, scriptInit)).1 e2 →
        e1 = e2) ∧
    (((stepEv (c1dom, stSel0) (Ev.click 1)).1.elems 0).outline =
        stSel0.originalOutline ∧
      ((stepEv (c1dom, stSel0) (Ev.click 1)).1.elems 0).backgroundColor =
        stSel0.originalBackground ∧
      ((stepEv (c1dom, stSel0) (Ev.click 1)).1.elems 0).contentEditable =
        "false") :=
  ⟨fun _ => (by decide : ("inherit" : String) ≠ "true"),
   (claim_C1 c1dom [Ev.click 0, Ev.click 1]
     (fun _ => (by decide : ("inherit" : String) ≠ "true"))).1,
   (claim_C1 c1dom [Ev.click 0, Ev.click 1]
     (fun _ => (by decide : ("inherit" : String) ≠ "true"))).2
     c1dom stSel0 0 1 rfl (by decide)⟩

/-- Claim C2: for a selected element, Escape restores exactly the outline
and background captured at selection time, clears editability, clears the
selection, and posts `ESCAPE_PRESSED`; moreover a click from an idle state
followed by Escape returns the clicked element's outline and background to
their pre-selection values exactly. -/
theorem claim_C2 :
    (∀ (d : Dom) (st : ScriptState) (e : Nat), st.selectedEl = some e →
        ((stepEv (d, st) Ev.escapeKey).1.elems e).outline = st.originalOutline ∧
        ((stepEv (d, st) Ev.escapeKey).1.elems e).backgroundColor =
          st.originalBackground ∧
        ((stepEv (d, st) Ev.escapeKey).1.elems e).contentEditable = "false" ∧
        (stepEv (d, st) Ev.escapeKey).2.1.selectedEl = none ∧
        (stepEv (d, st) Ev.escapeKey).2.2 = [RMsg.escapePressed]) ∧
    (∀ (d : Dom) (st : ScriptState) (t : Nat),
        st.selectedEl = none → st.hoverEl = none →
        ((runScript [Ev.click t, Ev.escapeKey] (d, st)).1.elems t).outline =
          (d.elems t).outline ∧
        ((runScript [Ev.click t, Ev.escapeKey] (d, st)).1.elems t).backgroundColor =
          (d.elems t).backgroundColor ∧
        ((runScript [Ev.click t, Ev.escapeKey] (d, st)).1.elems t).contentEditable =
          "false") := by
  constructor
  · intro d st e hsel
    simp only [stepEv, hsel]
    rw [setElem_elems, if_pos rfl]
    refine ⟨?_, ?_, ?_, ?_, ?_⟩ <;> trivial
  · intro d st t hsel hh
    simp only [runScript, List.foldl, stepDS, stepEv, hsel, hh, selectElement]
    rw [setElem_elems, if_pos rfl, setElem_elems, if_pos rfl]
    refine ⟨?_, ?_, ?_⟩ <;> trivial

theorem claim_C2_witness :
    ((stepEv (c1dom, stSel0) Ev.escapeKey).1.elems 0).outline =
        stSel0.originalOutline ∧
    ((stepEv (c1dom, stSel0) Ev.escapeKey).1.elems 0).backgroundColor =
        stSel0.originalBackground ∧
    ((stepEv (c1dom, stSel0) Ev.escapeKey).1.elems 0).contentEditable = "false" ∧
    (stepEv (c1dom, stSel0) Ev.escapeKey).2.1.selectedEl = none ∧
    (stepEv (c1dom, stSel0) Ev.escapeKey).2.2 = [RMsg.escapePressed] :=
  claim_C2.1 c1dom stSel0 0 rfl

/-- The hover invariant: the hover target is never the tracked selection. -/
def hoverInv (st : ScriptState) : Prop :=
  ∀ e, st.hoverEl = some e → st.selectedEl ≠ some e

theorem hoverInv_stepDS (d : Dom) (st : ScriptState) (ev : Ev)
    (h : hoverInv st) : hoverInv (stepDS (d, st) ev).2 := by
  cases ev with
  | mouseover t =>
      simp only [stepDS, stepEv]
      by_cases hg : st.selectedEl ≠ some t ∧ st.hoverEl ≠ some t
      · rw [if_pos hg]
        intro e he
        cases hh : st.hoverEl with
        | none =>
            simp only [hh] at he
            rw [Option.some.inj he] at hg
            exact hg.1
        | some hv =>
            simp only [hh] at he
            rw [Option.some.inj he] at hg
            exact hg.1
      · rw [if_neg hg]
        exact h
  | mouseout =>
      simp only [stepDS, stepEv]
      cases hh : st.hoverEl with
      | none => exact h
      | some hv =>
          simp only [hh]
          by_cases hs : st.selectedEl ≠ some hv
          · rw [if_pos hs]
            intro e he
            simp only at he
            exact absurd he (by simp)
          · rw [if_neg hs]
            exact h
  | click t =>
      simp only [stepDS, stepEv]
      cases hh : st.hoverEl with
      | none =>
          simp only [hh, selectElement]
          intro e he
          simp only at he
          exact absurd he (by simp)
      | some hv =>
          simp only [hh, selectElement]
          intro e he
          simp only at he
          exact absurd he (by simp)
  | escapeKey =>
      simp only [stepDS, stepEv]
      cases hsel : st.selectedEl with
      | none => exact h
      | some s =>
          simp only [hsel]
          intro e _
          simp only
          exact fun hc => Option.noConfusion hc
  | updateTextMsg s =>
      simp only [stepDS, stepEv]
      cases hsel : st.selectedEl with
      | none => exact h
      | some x => simp only [hsel]; exact h
  | updateClassesMsg s =>
      simp only [stepDS, stepEv]
      cases hsel : st.selectedEl with
      | none => exact h
      | some x => simp only [hsel]; exact h

/-- Claim C9: at every point of every event sequence processed by the
injected script from its freshly injected state, the hover target is never
the same node as the current selection. -/
theorem claim_C9 (d : Dom) (evs : List Ev) (e : Nat) :
    (runScript evs (d, scriptInit)).2.hoverEl = some e →
    (runScript evs (d, scriptInit)).2.selectedEl ≠ some e := by
  have h0 : hoverInv scriptInit := fun x hx => absurd hx (by simp [scriptInit])
  have hrun : ∀ p : Dom × ScriptState, hoverInv p.2 →
      hoverInv (runScript evs p).2 := by
    induction evs with
    | nil => intro p h; exact h
    | cons ev rest ih =>
        intro p h
        exact ih (stepDS p ev) (hoverInv_stepDS p.1 p.2 ev h)
  exact hrun (d, scriptInit) h0 e

theorem claim_C9_witness :
    (runScript [Ev.click 0, Ev.mouseover 1] (c1dom, scriptInit)).2.hoverEl =
        some 1 ∧
    (runScript [Ev.click 0, Ev.mouseover 1] (c1dom, scriptInit)).2.selectedEl ≠
        some 1 :=
  ⟨rfl, claim_C9 c1dom [Ev.click 0, Ev.mouseover 1] 1 rfl⟩

/-- Claim C10: every click (including on the already selected element)
posts exactly one fresh `ELEMENT_SELECTED` message carrying the element's
current text, classes and path; the host's handler replaces its stored
baseline with that text; consequently, after an applied text edit, a
re-click of the same element followed by another edit logs the post-edit
text as the `<old>` value. -/
theorem claim_C10 :
    (∀ (p : Dom × ScriptState) (t : Nat),
        (stepEv p (Ev.click t)).2.2 =
          [RMsg.elementSelected (p.1.elems t).text (p.1.elems t).className
            (getElementPath p.1 t)]) ∧
    (∀ (t c pa : String) (s : HostState),
        (handleMessage (RMsg.elementSelected t c pa) s).selectedElement =
          some { originalText := t, path := pa }) ∧
    (∀ (d : Dom) (st : ScriptState) (t : Nat) (n m : String) (s : HostState),
        st.selectedEl = some t → s.rendererPresent = true →
        (updateText m
            (((stepEv (stepDS (d, st) (Ev.updateTextMsg n)) (Ev.click t)).2.2).foldl
              (fun a msg => handleMessage msg a) s)).1.codeChanges =
          (((stepEv (stepDS (d, st) (Ev.updateTextMsg n)) (Ev.click t)).2.2).foldl
              (fun a msg => handleMessage msg a) s).codeChanges ++
            [textChangeEntry n m]) := by
  refine ⟨click_msgs, fun t c pa s => rfl, ?_⟩
  intro d st t n m s hsel hr
  rw [click_msgs]
  have htext : ((stepDS (d, st) (Ev.updateTextMsg n)).1.elems t).text = n := by
    simp only [stepDS, stepEv, hsel]
    rw [setElem_elems, if_pos rfl]
    rfl
  rw [htext]
  simp only [List.foldl, handleMessage, updateText]
  simp [hr, optOriginalText]

theorem claim_C10_witness :
    stSel0.selectedEl = some 0 ∧ c6state.rendererPresent = true ∧
    (updateText "z"
        (((stepEv (stepDS (c1dom, stSel0) (Ev.updateTextMsg "bye")) (Ev.click 0)).2.2).foldl
          (fun a msg => handleMessage msg a) c6state)).1.codeChanges =
      (((stepEv (stepDS (c1dom, stSel0) (Ev.updateTextMsg "bye")) (Ev.click 0)).2.2).foldl
          (fun a msg => handleMessage msg a) c6state).codeChanges ++
        [textChangeEntry "bye" "z"] :=
  ⟨rfl, rfl, claim_C10.2.2 c1dom stSel0 0 "bye" "z" c6state rfl rfl⟩
